import Mathlib

/-!
Shallow embedding of the YM2149 RP2040 HAL driver (crate root `src/lib.rs`,
helper types from `src/audio.rs`) and proofs of its specified properties.

The driver is modelled as a deterministic state transformer: every method on
the chip struct returns the updated driver state together with the list of
observable bus events (control-line level changes and data-bus drives) it
performs, in order.  `src/ym2149.rs` and `src/ym2149f.rs` are abandoned
prototype drivers that are not part of the crate's module tree; the crate
root `src/lib.rs` is the canonical implementation embedded here.
-/

namespace YM2149Spec

/-- Logic level of a digital output pin (embedded_hal `PinState`). -/
inductive PinState where
  | Low
  | High
deriving DecidableEq, Repr

/-- The four modes of the bus control decoder (`enum Mode`, lib.rs 250-266). -/
inductive Mode where
  | INACTIVE
  | READ
  | WRITE
  | ADDRESS
deriving DecidableEq, Repr

/-- The `repr(u8)` discriminant of `Mode`, i.e. `self as usize`. -/
def Mode.toNat : Mode → Nat
  | .INACTIVE => 0
  | .READ => 1
  | .WRITE => 2
  | .ADDRESS => 3

/-- `Mode::STATES` (lib.rs 269-274): per mode the `(BDIR, BC2, BC1)` levels.
The rows are INACTIVE, READ, WRITE, ADDRESS in discriminant order. -/
def Mode.STATES : List (PinState × PinState × PinState) :=
  [(.Low, .High, .Low),
   (.Low, .High, .High),
   (.High, .High, .Low),
   (.High, .High, .High)]

/-- `Mode::pin_states` (lib.rs 277-279): `Self::STATES[self as usize]`. -/
def Mode.pin_states (m : Mode) : PinState × PinState × PinState :=
  Mode.STATES.get ⟨m.toNat, by cases m <;> decide⟩

/-- One of the 3 analog audio channels (`enum AudioChannel`, lib.rs 283-291). -/
inductive AudioChannel where
  | A
  | B
  | C
deriving DecidableEq, Repr

/-- The `repr(u8)` discriminant of `AudioChannel`, i.e. `channel as u8`. -/
def AudioChannel.toNat : AudioChannel → Nat
  | .A => 0
  | .B => 1
  | .C => 2

/-- The two control lines the driver owns. -/
inductive CtrlLine where
  | BDIR
  | BC1
deriving DecidableEq, Repr

/-- One observable bus event: driving a control line to a level
(one `OutputPin::set_state` call), or driving the 8-bit data bus with a byte
(one `OutputBus::write_u8` call, which sets the 8 data pins to the byte's
bits, LSB first). -/
inductive Event where
  | ctrl (line : CtrlLine) (level : PinState)
  | bus (data : Nat)
deriving DecidableEq, Repr

/-- The driver state (`struct YM2149`, lib.rs 128-138): the byte last driven
on the data bus, the configured master clock frequency, and the levels last
driven on BC1 and BDIR. -/
structure YM2149 where
  data_bus : Nat
  master_clock_frequency : Nat
  bc1 : PinState
  bdir : PinState
deriving DecidableEq, Repr

/-- `u8::clamp(self, lo, hi)` on natural values. -/
def clampNat (x lo hi : Nat) : Nat := min (max x lo) hi

/-- `YM2149::set_mode` (lib.rs 324-328): look up the mode's pin-state triple,
drive BDIR with its first component, then BC1 with its third. -/
def set_mode (c : YM2149) (mode : Mode) : YM2149 × List Event :=
  let s := mode.pin_states
  ({ c with bdir := s.1, bc1 := s.2.2 },
   [Event.ctrl CtrlLine.BDIR s.1, Event.ctrl CtrlLine.BC1 s.2.2])

/-- `self.data_bus.write_u8(data)`: drive the data bus with a byte. -/
def write_u8 (c : YM2149) (data : Nat) : YM2149 × List Event :=
  ({ c with data_bus := data }, [Event.bus data])

/-- `YM2149::write_register` (lib.rs 344-353): clamp the address into
`[0, 15]`, then ADDRESS mode, drive the clamped address, INACTIVE, WRITE,
drive the value, INACTIVE. -/
def write_register (c : YM2149) (register value : Nat) : YM2149 × List Event :=
  let r := clampNat register 0 15
  let s1 := set_mode c Mode.ADDRESS
  let s2 := write_u8 s1.1 r
  let s3 := set_mode s2.1 Mode.INACTIVE
  let s4 := set_mode s3.1 Mode.WRITE
  let s5 := write_u8 s4.1 value
  let s6 := set_mode s5.1 Mode.INACTIVE
  (s6.1, s1.2 ++ s2.2 ++ s3.2 ++ s4.2 ++ s5.2 ++ s6.2)

/-- `u16::to_le_bytes`: the two little-endian bytes of a 16-bit value. -/
def toLeBytes16 (p : Nat) : Nat × Nat := (p % 256, p / 256 % 256)

/-- `YM2149::tone` (lib.rs 362-368): write the fine byte to register
`channel*2`, then the rough byte to register `channel*2 + 1`. -/
def tone (c : YM2149) (channel : AudioChannel) (period : Nat) :
    YM2149 × List Event :=
  let bytes := toLeBytes16 period
  let register_pair_index := channel.toNat * 2
  let s1 := write_register c register_pair_index bytes.1
  let s2 := write_register s1.1 (register_pair_index + 1) bytes.2
  (s2.1, s1.2 ++ s2.2)

/-- `YM2149::tone_hz` (lib.rs 371-374): truncating integer division
`master_clock_frequency / (16 * frequency)`, then `as u16` truncation. -/
def tone_hz (c : YM2149) (channel : AudioChannel) (frequency : Nat) :
    YM2149 × List Event :=
  let tp := c.master_clock_frequency / (16 * frequency)
  tone c channel (tp % 65536)

/-- `YM2149::volume` (lib.rs 395-397): write register `8 + channel` with
`volume & 0x1F`. -/
def volume (c : YM2149) (channel : AudioChannel) (v : Nat) :
    YM2149 × List Event :=
  write_register c (8 + channel.toNat) (v &&& 0x1F)

/-- Recover the logical register writes from a bus-event trace: each
ten-event handshake block — ADDRESS levels (BDIR High, BC1 High), a bus
drive with `r`, INACTIVE levels (Low, Low), WRITE levels (High, Low), a bus
drive with `v`, INACTIVE levels (Low, Low) — is one register write `(r, v)`.
Any trace not consisting of such blocks contributes no further writes. -/
def decodeWrites : List Event → List (Nat × Nat)
  | .ctrl .BDIR .High :: .ctrl .BC1 .High ::
    .bus r ::
    .ctrl .BDIR .Low :: .ctrl .BC1 .Low ::
    .ctrl .BDIR .High :: .ctrl .BC1 .Low ::
    .bus v ::
    .ctrl .BDIR .Low :: .ctrl .BC1 .Low :: rest =>
      (r, v) :: decodeWrites rest
  | _ => []

/-- The event trace of `write_register`, flattened (shared helper). -/
theorem write_register_events (c : YM2149) (r v : Nat) :
    (write_register c r v).2 =
      [Event.ctrl CtrlLine.BDIR PinState.High,
       Event.ctrl CtrlLine.BC1 PinState.High,
       Event.bus (clampNat r 0 15),
       Event.ctrl CtrlLine.BDIR PinState.Low,
       Event.ctrl CtrlLine.BC1 PinState.Low,
       Event.ctrl CtrlLine.BDIR PinState.High,
       Event.ctrl CtrlLine.BC1 PinState.Low,
       Event.bus v,
       Event.ctrl CtrlLine.BDIR PinState.Low,
       Event.ctrl CtrlLine.BC1 PinState.Low] := rfl

/-- A concrete driver state: data bus at 0, a 2 MHz master clock, both
control lines Low. -/
def c0 : YM2149 :=
  { data_bus := 0, master_clock_frequency := 2000000,
    bc1 := PinState.Low, bdir := PinState.Low }

/-- C1: `write_register(r, v)` performs exactly this event sequence: set
mode ADDRESS (BDIR High, BC1 High), drive the bus with the clamped address,
set mode INACTIVE (Low, Low), set mode WRITE (High, Low), drive the bus
with `v`, set mode INACTIVE (Low, Low) — with no other bus or control-line
events and including both INACTIVE hops. -/
theorem write_register_event_sequence (c : YM2149) (r v : Nat) :
    (write_register c r v).2 =
      [Event.ctrl CtrlLine.BDIR PinState.High,
       Event.ctrl CtrlLine.BC1 PinState.High,
       Event.bus (clampNat r 0 15),
       Event.ctrl CtrlLine.BDIR PinState.Low,
       Event.ctrl CtrlLine.BC1 PinState.Low,
       Event.ctrl CtrlLine.BDIR PinState.High,
       Event.ctrl CtrlLine.BC1 PinState.Low,
       Event.bus v,
       Event.ctrl CtrlLine.BDIR PinState.Low,
       Event.ctrl CtrlLine.BC1 PinState.Low] := rfl

/-- C2: the effective register address is `clamp(a, 0, 15)`, so for every
address `a` in `(15, 255]` the event trace of `write_register(a, v)` is
exactly that of `write_register(15, v)`. -/
theorem write_register_clamp_high (c : YM2149) (a v : Nat)
    (h1 : a ≤ 255) (h2 : 15 < a) :
    decodeWrites (write_register c a v).2 = [(clampNat a 0 15, v)] ∧
    (write_register c a v).2 = (write_register c 15 v).2 := by
  have h : clampNat a 0 15 = 15 := by
    unfold clampNat
    omega
  constructor
  · rw [write_register_events, h]
    rfl
  · rw [write_register_events, write_register_events, h]
    rfl

/-- Witness for C2 at `a = 200`, `v = 7`. -/
theorem write_register_clamp_high_witness :
    decodeWrites (write_register c0 200 7).2 = [(clampNat 200 0 15, 7)] ∧
    (write_register c0 200 7).2 = (write_register c0 15 7).2 :=
  write_register_clamp_high c0 200 7 (by decide) (by decide)

/-- C3: `tone(X, p)` issues exactly two register writes — register `2X`
with the low byte `p % 256`, then register `2X + 1` with the high byte
`(p >> 8) % 256` — in that order and no others. -/
theorem tone_register_writes (c : YM2149) (channel : AudioChannel) (p : Nat) :
    decodeWrites (tone c channel p).2 =
      [(2 * channel.toNat, p % 256), (2 * channel.toNat + 1, p / 256 % 256)] := by
  cases channel <;> rfl

/-- C4: `volume(X, v)` issues exactly one register write, to register
`8 + X`, with value `v & 0x1F`. -/
theorem volume_register_write (c : YM2149) (channel : AudioChannel) (v : Nat) :
    decodeWrites (volume c channel v).2 = [(8 + channel.toNat, v &&& 0x1F)] := by
  cases channel <;> rfl

/-- C5: with a 2 MHz master clock, `tone_hz(A, 440)` computes the period
`2000000 / (16 * 440) = 284` by truncating division and issues exactly the
register writes `(0, 28)` then `(1, 1)` — the byte split of `284 = 0x011C`. -/
theorem tone_hz_440_at_2mhz :
    2000000 / (16 * 440) = 284 ∧
    decodeWrites (tone_hz c0 AudioChannel.A 440).2 = [(0, 28), (1, 1)] := by
  constructor
  · rfl
  · rfl

/-- The fixed (BDIR, BC1) table the specification states for the four modes
(spec §8 and claim C6), written from the spec's words for comparison with
the code's `Mode::STATES`. -/
def specModeTable : Mode → PinState × PinState
  | Mode.INACTIVE => (PinState.Low, PinState.Low)
  | Mode.READ => (PinState.Low, PinState.High)
  | Mode.WRITE => (PinState.High, PinState.Low)
  | Mode.ADDRESS => (PinState.High, PinState.High)

/-- C6: `set_mode(mode)` drives BDIR and BC1 to a pair of levels that is a
pure function of the mode alone — two calls with the same mode from any two
driver states emit identical control-line events — and that pair matches the
fixed table INACTIVE (Low, Low), READ (Low, High), WRITE (High, Low),
ADDRESS (High, High). -/
theorem set_mode_pure_fixed_table (m : Mode) (c d : YM2149) :
    (set_mode c m).2 = (set_mode d m).2 ∧
    (set_mode c m).2 =
      [Event.ctrl CtrlLine.BDIR (specModeTable m).1,
       Event.ctrl CtrlLine.BC1 (specModeTable m).2] := by
  cases m <;> exact ⟨rfl, rfl⟩

/-- A helper enum for the envelope repetition frequency
(`enum EnvelopeFrequency`, audio.rs 89-93); payloads are u16 values. -/
inductive EnvelopeFrequency where
  | Hertz (f : Nat)
  | BeatsPerMinute (bpm : Nat)
  | Integer (x : Nat)
deriving DecidableEq, Repr

/-- `EnvelopeFrequency::as_ep` (audio.rs 96-102).  The `checked_div` is
`None` exactly when the divisor `256 * f` is zero, `unwrap_or(1)` turns that
into 1, and `as u16` truncates the u32 quotient to 16 bits.  The u16
multiplication `60 * _` of the BeatsPerMinute arm is modelled with wrapping
(mod 2^16) semantics. -/
def as_ep : EnvelopeFrequency → Nat → Nat
  | .Hertz f, clock => (if 256 * f = 0 then 1 else clock / (256 * f)) % 65536
  | .BeatsPerMinute bpm, clock => (60 * as_ep (.Hertz bpm) clock) % 65536
  | .Integer x, _ => x
termination_by e _ =>
  match e with
  | .BeatsPerMinute _ => 1
  | _ => 0
decreasing_by simp

/-- C7: the BeatsPerMinute path equals 60 times the Hertz path with the
multiplication carried out in the 16-bit result type, for bpm = 120 and in
general, for every master clock value. -/
theorem beats_per_minute_is_60_times_hertz (clock : Nat) :
    as_ep (EnvelopeFrequency.BeatsPerMinute 120) clock =
      (60 * as_ep (EnvelopeFrequency.Hertz 120) clock) % 65536 ∧
    ∀ bpm : Nat,
      as_ep (EnvelopeFrequency.BeatsPerMinute bpm) clock =
        (60 * as_ep (EnvelopeFrequency.Hertz bpm) clock) % 65536 := by
  constructor
  · simp [as_ep]
  · intro bpm
    simp [as_ep]

/-- C8 counterexample: at `Hertz(1)` with clock 100 the quotient
`100 / 256` underflows the 16-bit divider and `as_ep` returns 0 — a zero
value, not the claimed minimum divider of 1. -/
theorem as_ep_underflow_returns_zero :
    100 / (256 * 1) = 0 ∧
    as_ep (EnvelopeFrequency.Hertz 1) 100 = 0 ∧
    as_ep (EnvelopeFrequency.Hertz 1) 100 ≠ 1 := by
  refine ⟨rfl, ?_, ?_⟩ <;> simp [as_ep]

/-- C8 amended: `as_ep` on the Hertz arm is total (never panics); the
division by zero at `f = 0` is guarded and falls back to 1; for `f > 0` the
result is the truncating quotient `clock / (256 * f)` reduced mod 2^16 — in
particular an underflowing clock/frequency combination (`clock < 256 * f`)
yields 0, and a quotient of 2^16 or more wraps by truncation rather than
falling back to 1. -/
theorem as_ep_hertz_guard (f clock : Nat) :
    as_ep (EnvelopeFrequency.Hertz f) clock =
      (if f = 0 then 1 else clock / (256 * f) % 65536) ∧
    (clock < 256 * f → as_ep (EnvelopeFrequency.Hertz f) clock = 0) := by
  constructor
  · by_cases hf : f = 0
    · subst hf
      simp [as_ep]
    · have h : ¬ (256 * f = 0) := by simp [hf]
      simp [as_ep, h, hf]
  · intro hlt
    have hf : ¬ (256 * f = 0) := by omega
    simp [as_ep, hf, Nat.div_eq_of_lt hlt]

/-- Witness for C8's amended theorem at `f = 1`, `clock = 100`. -/
theorem as_ep_hertz_guard_witness :
    as_ep (EnvelopeFrequency.Hertz 1) 100 =
      (if (1 : Nat) = 0 then 1 else 100 / (256 * 1) % 65536) ∧
    as_ep (EnvelopeFrequency.Hertz 1) 100 = 0 :=
  ⟨(as_ep_hertz_guard 1 100).1, (as_ep_hertz_guard 1 100).2 (by decide)⟩

/-- `enum BaseNote` (audio.rs 16-26); the `repr(i8)` discriminants are the
semitone offsets from A (C = -9, D = -7, E = -5, F = -4, G = -2, A = 0,
B = 2), used only by the floating-point `as_hz`. -/
inductive BaseNote where
  | C
  | D
  | E
  | F
  | G
  | A
  | B
deriving DecidableEq, Repr

/-- `enum Accidental` (audio.rs 32-40); the `repr(i8)` discriminants are
half-semitone doubles (Natural = 0, Sharp = 2, Flat = -2, MicroSharp = 1,
MicroFlat = -1), used only by the floating-point `as_hz`. -/
inductive Accidental where
  | Natural
  | Sharp
  | Flat
  | MicroSharp
  | MicroFlat
deriving DecidableEq, Repr

/-- `struct Note` (audio.rs 47-53).  The `offset` field is an f32 transpose
offset in semitones; the operations embedded here (`new`, `transpose`) only
store and copy it, so it is carried as a rational number.  The
floating-point `as_hz` method is not embedded. -/
structure Note where
  base_note : BaseNote
  octave : Nat
  accidental : Option Accidental
  offset : ℚ
deriving DecidableEq, Repr

/-- `Note::new` (audio.rs 56-63): the transpose offset starts at 0. -/
def Note.new (base_note : BaseNote) (octave : Nat)
    (accidental : Option Accidental) : Note :=
  { base_note := base_note, octave := octave, accidental := accidental,
    offset := 0 }

/-- `Note::transpose` (audio.rs 65-70): a struct-update expression that
stores `semitones` into `offset` and keeps every other field. -/
def Note.transpose (n : Note) (semitones : ℚ) : Note :=
  { n with offset := semitones }

/-- C10: `transpose` replaces the stored transpose offset instead of
accumulating it — `n.transpose(s).transpose(t) = n.transpose(t)` — and
leaves the base note, octave and accidental fields unchanged. -/
theorem transpose_replaces_offset (n : Note) (s t : ℚ) :
    (n.transpose s).transpose t = n.transpose t ∧
    (n.transpose s).base_note = n.base_note ∧
    (n.transpose s).octave = n.octave ∧
    (n.transpose s).accidental = n.accidental := by
  cases n
  exact ⟨rfl, rfl, rfl, rfl⟩

end YM2149Spec
